import Mathlib

/-!
Verification of the trajectory spline-fit engine
(`src/plugins/trajectory/filters/SplineFit.hpp`).

The C++ code computes with IEEE doubles; every quantity the claims speak
about is the result of `+`, `-`, `*`, `/` and `floor`, so we embed the
arithmetic over `ℚ` (exact field arithmetic standing in for real-number
semantics).  Fixed-dimension vectors `Matrix<double, N, 1>` are embedded
as functions `Fin N → ℚ`; `std::vector` fields are Lean `List`s.
-/

namespace LidarTrajectory

/-- Embedding of `SplineFitScalar::EndPointCubic` (SplineFit.hpp lines 50-62).
The C++ function returns the position value and optionally stores the first
and second derivative through the pointers `v` and `a`; we return all three
as a triple `(position, velocity, acceleration)`, each component written
exactly as the corresponding C++ expression (Horner form). -/
def EndPointCubic (rm vm rp vp t : ℚ) : ℚ × ℚ × ℚ :=
  let rs := rp + rm
  let rd := rp - rm
  let vs := vp + vm
  let vd := vp - vm
  let a0 := (4 * rs - vd) / 8
  let a1 := (6 * rd - vs) / 4
  let a2 := vd / 2
  let a3 := -2 * rd + vs
  (t * (t * (t * a3 + a2) + a1) + a0,
   t * (t * 3 * a3 + 2 * a2) + a1,
   t * 6 * a3 + 2 * a2)

/-- Embedding of the data fields of `template <int N> class SplineFit`
(SplineFit.hpp lines 65-95): block count `num` (a C++ `int`, embedded as
`ℤ`), timing parameters, node positions `r`, node velocities `v` and the
per-node `missing` flags. -/
structure SplineFit (N : ℕ) where
  num : ℤ
  tblock : ℚ
  tstart : ℚ
  r : List (Fin N → ℚ)
  v : List (Fin N → ℚ)
  missing : List Bool

/-- Embedding of the constructor `SplineFit(int _num, double _tblock,
double _tstart)` (SplineFit.hpp lines 73-79).  The C++ body performs no
validation: it only sizes `r`, `v` and `missing` to `num + 1` entries.
If `num + 1` is negative, the conversion of `num + 1` to the unsigned
`std::vector` size type yields an astronomically large request and the
vector constructor throws; we embed that failure as `none`.  Eigen
default-constructs the `datum` entries with unspecified values, embedded
here as the zero vector (only the entry counts are observable);
`std::vector<bool> missing(num+1)` value-initializes to `false`. -/
def SplineFit.construct (N : ℕ) (num : ℤ) (tblock tstart : ℚ) :
    Option (SplineFit N) :=
  if num + 1 < 0 then none
  else some
    { num := num
      tblock := tblock
      tstart := tstart
      r := List.replicate (num + 1).toNat (fun _ => 0)
      v := List.replicate (num + 1).toNat (fun _ => 0)
      missing := List.replicate (num + 1).toNat false }

/-- Embedding of `SplineFit::tconvert` (SplineFit.hpp lines 84-90):
convert a time to a clamped block index plus fractional offset. -/
def SplineFit.tconvert {N : ℕ} (s : SplineFit N) (t : ℚ) : ℤ × ℚ :=
  let i : ℤ := min (s.num - 1) (max 0 ⌊(t - s.tstart) / s.tblock⌋)
  (i, (t - s.tstart) / s.tblock - ((i : ℚ) + 1 / 2))

/-- Claim C1: for all scalar inputs, `EndPointCubic` returns
`a0 + a1*t + a2*t^2 + a3*t^3` with `a0 = (4*rs - vd)/8`,
`a1 = (6*rd - vs)/4`, `a2 = vd/2`, `a3 = -2*rd + vs` (where `rs = rp+rm`,
`rd = rp-rm`, `vs = vp+vm`, `vd = vp-vm`), stores `a1 + 2*a2*t + 3*a3*t^2`
into the velocity output and `2*a2 + 6*a3*t` into the acceleration
output. -/
theorem endPointCubic_formula (rm vm rp vp t : ℚ) :
    (EndPointCubic rm vm rp vp t).1
      = (4 * ((rp + rm)) - (vp - vm)) / 8
        + ((6 * (rp - rm) - (vp + vm)) / 4) * t
        + ((vp - vm) / 2) * t ^ 2
        + (-2 * (rp - rm) + (vp + vm)) * t ^ 3
  ∧ (EndPointCubic rm vm rp vp t).2.1
      = (6 * (rp - rm) - (vp + vm)) / 4
        + 2 * ((vp - vm) / 2) * t
        + 3 * (-2 * (rp - rm) + (vp + vm)) * t ^ 2
  ∧ (EndPointCubic rm vm rp vp t).2.2
      = 2 * ((vp - vm) / 2) + 6 * (-2 * (rp - rm) + (vp + vm)) * t := by
  refine ⟨?_, ?_, ?_⟩ <;> (simp only [EndPointCubic]; ring)

/-- Claim C4: `EndPointCubic` interpolates the Hermite endpoint data:
position at `t = -1/2` is `rm`, position at `t = 1/2` is `rp`, the
velocity output at `t = -1/2` is `vm` and at `t = 1/2` is `vp`. -/
theorem endPointCubic_hermite (rm vm rp vp : ℚ) :
    (EndPointCubic rm vm rp vp (-(1 / 2))).1 = rm
  ∧ (EndPointCubic rm vm rp vp (1 / 2)).1 = rp
  ∧ (EndPointCubic rm vm rp vp (-(1 / 2))).2.1 = vm
  ∧ (EndPointCubic rm vm rp vp (1 / 2)).2.1 = vp := by
  refine ⟨?_, ?_, ?_, ?_⟩ <;> (simp only [EndPointCubic]; ring)

/-- A concrete spline fit with `tblock = 1`, `tstart = 0`, `num = 5`,
used by the spec's Block Index Mapper test points. -/
def testFit : SplineFit 3 :=
  { num := 5
    tblock := 1
    tstart := 0
    r := List.replicate 6 (fun _ => 0)
    v := List.replicate 6 (fun _ => 0)
    missing := List.replicate 6 false }

/-- Claim C2: for every `SplineFit` with `num ≥ 1` and `tblock ≠ 0`,
`tconvert t` returns `(i, tf)` with
`i = min (num-1) (max 0 ⌊(t - tstart)/tblock⌋)` and
`tf = (t - tstart)/tblock - (i + 1/2)`; the index `i` always lies in
`[0, num-1]` (no error for out-of-range `t`); and for `tblock = 1`,
`tstart = 0`, `num = 5`, `tconvert (-10)` returns index `0` while
`tconvert 2.5` returns index `2` with offset `0`. -/
theorem tconvert_spec {N : ℕ} (s : SplineFit N) (t : ℚ)
    (h1 : 1 ≤ s.num) (h2 : s.tblock ≠ 0) :
    (s.tconvert t).1 = min (s.num - 1) (max 0 ⌊(t - s.tstart) / s.tblock⌋)
  ∧ (s.tconvert t).2
      = (t - s.tstart) / s.tblock - (((s.tconvert t).1 : ℚ) + 1 / 2)
  ∧ 0 ≤ (s.tconvert t).1
  ∧ (s.tconvert t).1 ≤ s.num - 1
  ∧ (testFit.tconvert (-10)).1 = 0
  ∧ (testFit.tconvert (5 / 2)).1 = 2
  ∧ (testFit.tconvert (5 / 2)).2 = 0 := by
  have hfst :
      (s.tconvert t).1 = min (s.num - 1) (max 0 ⌊(t - s.tstart) / s.tblock⌋) :=
    rfl
  have hfA : ⌊((-10 : ℚ) - 0) / 1⌋ = -10 := by
    rw [Int.floor_eq_iff] <;> norm_num
  have hfB : ⌊((5 / 2 : ℚ) - 0) / 1⌋ = 2 := by
    rw [Int.floor_eq_iff] <;> norm_num
  refine ⟨hfst, rfl, ?_, ?_, ?_, ?_, ?_⟩
  · rw [hfst]; omega
  · rw [hfst]; omega
  · show min ((5 : ℤ) - 1) (max 0 ⌊((-10 : ℚ) - 0) / 1⌋) = 0
    rw [hfA]; decide
  · show min ((5 : ℤ) - 1) (max 0 ⌊((5 / 2 : ℚ) - 0) / 1⌋) = 2
    rw [hfB]; decide
  · show ((5 / 2 : ℚ) - 0) / 1
        - (((min ((5 : ℤ) - 1) (max 0 ⌊((5 / 2 : ℚ) - 0) / 1⌋) : ℤ) : ℚ) + 1 / 2)
      = 0
    rw [hfB]
    norm_num

/-- Witness for `tconvert_spec` at the concrete fit `testFit` and `t = 0`:
the hypotheses hold and the returned index is clamped into range. -/
theorem tconvert_spec_witness :
    ((1 : ℤ) ≤ testFit.num ∧ testFit.tblock ≠ 0)
  ∧ 0 ≤ (testFit.tconvert 0).1 ∧ (testFit.tconvert 0).1 ≤ testFit.num - 1 :=
  ⟨⟨by decide, by decide⟩,
   (tconvert_spec testFit 0 (by decide) (by decide)).2.2.1,
   (tconvert_spec testFit 0 (by decide) (by decide)).2.2.2.1⟩

/-- Embedding of `template <int N> class AccelJumpConstraint`
(SplineFit.hpp lines 99-125): the only state is the precomputed
`_scale`. -/
structure AccelJumpConstraint where
  scale : ℚ

/-- The constructor `AccelJumpConstraint(double tblock)` sets
`_scale = 2 / (tblock * tblock)` (line 105). -/
def AccelJumpConstraint.ofTblock (tblock : ℚ) : AccelJumpConstraint :=
  ⟨2 / (tblock * tblock)⟩

/-- Embedding of `AccelJumpConstraint::operator()` (lines 106-124):
`residual[i] = scale * (3*(rc[i]-ra[i]) - (vc[i]+va[i]) - 4*vb[i])`. -/
def AccelJumpConstraint.residual {N : ℕ} (c : AccelJumpConstraint)
    (ra va vb rc vc : Fin N → ℚ) : Fin N → ℚ :=
  fun i => c.scale * (3 * (rc i - ra i) - (vc i + va i) - 4 * vb i)

/-- Embedding of `template <int N> class ClampConstraint`
(SplineFit.hpp lines 127-153). -/
structure ClampConstraint where
  scale : ℚ

/-- The constructor `ClampConstraint(double tblock)` sets
`_scale = 1 / (tblock * tblock * tblock)` (line 133). -/
def ClampConstraint.ofTblock (tblock : ℚ) : ClampConstraint :=
  ⟨1 / (tblock * tblock * tblock)⟩

/-- Embedding of `ClampConstraint::operator()` (lines 136-152):
`residual[i] = scale * (4*rb[i] - 2*(rc[i]+ra[i]) + (vc[i]-va[i]))`. -/
def ClampConstraint.residual {N : ℕ} (c : ClampConstraint)
    (ra va rb rc vc : Fin N → ℚ) : Fin N → ℚ :=
  fun i => c.scale * (4 * rb i - 2 * (rc i + ra i) + (vc i - va i))

/-- Claim C5: `AccelJumpConstraint` constructed with `tblock` has
`scale = 2/tblock^2`, and its residual is
`scale * (3*(rc[i]-ra[i]) - (vc[i]+va[i]) - 4*vb[i])` in every dimension
`i`, the same scale in all dimensions. -/
theorem accelJumpConstraint_formula {N : ℕ} (tblock : ℚ)
    (ra va vb rc vc : Fin N → ℚ) :
    (AccelJumpConstraint.ofTblock tblock).scale = 2 / tblock ^ 2
  ∧ ∀ i, (AccelJumpConstraint.ofTblock tblock).residual ra va vb rc vc i
      = (2 / tblock ^ 2)
        * (3 * (rc i - ra i) - (vc i + va i) - 4 * vb i) := by
  constructor
  · show (2 : ℚ) / (tblock * tblock) = 2 / tblock ^ 2
    rw [pow_two]
  · intro i
    show (2 : ℚ) / (tblock * tblock)
        * (3 * (rc i - ra i) - (vc i + va i) - 4 * vb i)
      = 2 / tblock ^ 2 * (3 * (rc i - ra i) - (vc i + va i) - 4 * vb i)
    rw [pow_two]

/-- The all-zero node vector, used to instantiate witnesses. -/
def zeroVec (N : ℕ) : Fin N → ℚ := fun _ => 0

/-- Claim C3: for `tblock > 0`, each component of the `AccelJumpConstraint`
residual equals the jump at the shared node `b` in the second time
derivative (the acceleration output of `EndPointCubic`, divided by
`tblock^2` to convert to absolute time) between the cubic on `(a, b)`
evaluated at `t = 1/2` and the cubic on `(b, c)` evaluated at `t = -1/2`;
hence the residual vector is zero iff the piecewise cubic is C2-continuous
at `b`. -/
theorem accelJump_residual_is_accel_jump {N : ℕ} (tblock : ℚ)
    (h : 0 < tblock) (ra va rb vb rc vc : Fin N → ℚ) :
    (∀ i, (AccelJumpConstraint.ofTblock tblock).residual ra va vb rc vc i
        = (EndPointCubic (rb i) (vb i) (rc i) (vc i) (-(1 / 2))).2.2
            / tblock ^ 2
          - (EndPointCubic (ra i) (va i) (rb i) (vb i) (1 / 2)).2.2
            / tblock ^ 2)
  ∧ ((∀ i, (AccelJumpConstraint.ofTblock tblock).residual ra va vb rc vc i
        = 0)
      ↔ ∀ i, (EndPointCubic (ra i) (va i) (rb i) (vb i) (1 / 2)).2.2
            / tblock ^ 2
          = (EndPointCubic (rb i) (vb i) (rc i) (vc i) (-(1 / 2))).2.2
            / tblock ^ 2) := by
  have ht : tblock ≠ 0 := ne_of_gt h
  have key : ∀ i,
      (AccelJumpConstraint.ofTblock tblock).residual ra va vb rc vc i
        = (EndPointCubic (rb i) (vb i) (rc i) (vc i) (-(1 / 2))).2.2
            / tblock ^ 2
          - (EndPointCubic (ra i) (va i) (rb i) (vb i) (1 / 2)).2.2
            / tblock ^ 2 := by
    intro i
    simp only [AccelJumpConstraint.residual, AccelJumpConstraint.ofTblock,
      EndPointCubic]
    field_simp
    ring
  refine ⟨key, ?_, ?_⟩
  · intro hz i
    have hk := key i
    rw [hz i] at hk
    linarith
  · intro he i
    rw [key i, he i, sub_self]

/-- Witness for `accelJump_residual_is_accel_jump` at `tblock = 1` and the
all-zero nodes. -/
theorem accelJump_residual_is_accel_jump_witness :
    (0 : ℚ) < 1
  ∧ ∀ i : Fin 1, (AccelJumpConstraint.ofTblock 1).residual
      (zeroVec 1) (zeroVec 1) (zeroVec 1) (zeroVec 1) (zeroVec 1) i
      = (EndPointCubic (zeroVec 1 i) (zeroVec 1 i) (zeroVec 1 i)
          (zeroVec 1 i) (-(1 / 2))).2.2 / 1 ^ 2
        - (EndPointCubic (zeroVec 1 i) (zeroVec 1 i) (zeroVec 1 i)
          (zeroVec 1 i) (1 / 2)).2.2 / 1 ^ 2 :=
  ⟨by norm_num,
   (accelJump_residual_is_accel_jump 1 (by norm_num) (zeroVec 1) (zeroVec 1)
     (zeroVec 1) (zeroVec 1) (zeroVec 1) (zeroVec 1)).1⟩

/-- The third derivative (in normalized block time) of the cubic produced
by `EndPointCubic`: the acceleration output is affine in `t`, so its slope
is recovered exactly as `a(1) - a(0)`. -/
def cubicJerk (rm vm rp vp : ℚ) : ℚ :=
  (EndPointCubic rm vm rp vp 1).2.2 - (EndPointCubic rm vm rp vp 0).2.2

/-- Claim C6: `ClampConstraint` constructed with `tblock` has
`scale = 1/tblock^3`; its residual is
`scale * (4*rb[i] - 2*(rc[i]+ra[i]) + (vc[i]-va[i]))` in every dimension;
and the residual vector is zero exactly when the jump in the third
derivative (in absolute time) between the segment `(a, b)` and the segment
`(b, c)` is zero — for any midpoint velocity `vb`, since the jump is
independent of it. -/
theorem clampConstraint_formula {N : ℕ} (tblock : ℚ) (h : 0 < tblock)
    (ra va rb rc vc : Fin N → ℚ) :
    (ClampConstraint.ofTblock tblock).scale = 1 / tblock ^ 3
  ∧ (∀ i, (ClampConstraint.ofTblock tblock).residual ra va rb rc vc i
      = (1 / tblock ^ 3)
        * (4 * rb i - 2 * (rc i + ra i) + (vc i - va i)))
  ∧ ∀ vb : Fin N → ℚ,
      ((∀ i, (ClampConstraint.ofTblock tblock).residual ra va rb rc vc i
          = 0)
        ↔ ∀ i, cubicJerk (ra i) (va i) (rb i) (vb i) / tblock ^ 3
             = cubicJerk (rb i) (vb i) (rc i) (vc i) / tblock ^ 3) := by
  have ht : tblock ≠ 0 := ne_of_gt h
  have key : ∀ (vb : Fin N → ℚ) (i : Fin N),
      cubicJerk (rb i) (vb i) (rc i) (vc i) / tblock ^ 3
        - cubicJerk (ra i) (va i) (rb i) (vb i) / tblock ^ 3
      = 6 * (ClampConstraint.ofTblock tblock).residual ra va rb rc vc i := by
    intro vb i
    simp only [cubicJerk, EndPointCubic, ClampConstraint.residual,
      ClampConstraint.ofTblock]
    field_simp
    ring
  refine ⟨?_, ?_, ?_⟩
  · show (1 : ℚ) / (tblock * tblock * tblock) = 1 / tblock ^ 3
    rw [pow_succ, pow_two]
  · intro i
    show (1 : ℚ) / (tblock * tblock * tblock)
        * (4 * rb i - 2 * (rc i + ra i) + (vc i - va i))
      = 1 / tblock ^ 3 * (4 * rb i - 2 * (rc i + ra i) + (vc i - va i))
    rw [pow_succ, pow_two]
  · intro vb
    constructor
    · intro hz i
      have hk := key vb i
      rw [hz i] at hk
      linarith
    · intro he i
      have hk := key vb i
      rw [he i, sub_self] at hk
      linarith

/-- Witness for `clampConstraint_formula` at `tblock = 1` and the all-zero
nodes. -/
theorem clampConstraint_formula_witness :
    (0 : ℚ) < 1 ∧ (ClampConstraint.ofTblock 1).scale = 1 / 1 ^ 3 :=
  ⟨by norm_num,
   (clampConstraint_formula 1 (by norm_num) (zeroVec 1) (zeroVec 1)
     (zeroVec 1) (zeroVec 1) (zeroVec 1)).1⟩

/-- A global cubic polynomial `c0 + c1*s + c2*s^2 + c3*s^3`. -/
def polyEval (c0 c1 c2 c3 s : ℚ) : ℚ := c0 + c1 * s + c2 * s ^ 2 + c3 * s ^ 3

/-- The exact derivative of `polyEval`. -/
def polyDeriv (c0 c1 c2 c3 s : ℚ) : ℚ := c1 + 2 * c2 * s + 3 * c3 * s ^ 2

/-- Exact position samples of a (vector-valued, per-dimension) cubic at an
absolute time. -/
def sampleR {N : ℕ} (c0 c1 c2 c3 : Fin N → ℚ) (t : ℚ) : Fin N → ℚ :=
  fun i => polyEval (c0 i) (c1 i) (c2 i) (c3 i) t

/-- Exact velocity samples of the cubic, expressed in normalized per-block
time units (the absolute derivative times `tblock`). -/
def sampleV {N : ℕ} (c0 c1 c2 c3 : Fin N → ℚ) (tblock t : ℚ) : Fin N → ℚ :=
  fun i => tblock * polyDeriv (c0 i) (c1 i) (c2 i) (c3 i) t

/-- Claim C7: for every global cubic polynomial, every `tblock > 0` and
three consecutive equally spaced nodes `a = ta`, `b = ta + tblock`,
`c = ta + 2*tblock` with exact position samples and exact per-block
velocities, both the `AccelJumpConstraint` residual and the
`ClampConstraint` residual are the zero vector. -/
theorem sampled_cubic_zero_residuals {N : ℕ} (c0 c1 c2 c3 : Fin N → ℚ)
    (ta tblock : ℚ) (h : 0 < tblock) :
    (∀ i, (AccelJumpConstraint.ofTblock tblock).residual
        (sampleR c0 c1 c2 c3 ta)
        (sampleV c0 c1 c2 c3 tblock ta)
        (sampleV c0 c1 c2 c3 tblock (ta + tblock))
        (sampleR c0 c1 c2 c3 (ta + 2 * tblock))
        (sampleV c0 c1 c2 c3 tblock (ta + 2 * tblock)) i = 0)
  ∧ (∀ i, (ClampConstraint.ofTblock tblock).residual
        (sampleR c0 c1 c2 c3 ta)
        (sampleV c0 c1 c2 c3 tblock ta)
        (sampleR c0 c1 c2 c3 (ta + tblock))
        (sampleR c0 c1 c2 c3 (ta + 2 * tblock))
        (sampleV c0 c1 c2 c3 tblock (ta + 2 * tblock)) i = 0) := by
  constructor <;> intro i <;>
    simp only [AccelJumpConstraint.residual, AccelJumpConstraint.ofTblock,
      ClampConstraint.residual, ClampConstraint.ofTblock, sampleR, sampleV,
      polyEval, polyDeriv] <;>
    ring

/-- Witness for `sampled_cubic_zero_residuals` at `tblock = 1`, `ta = 0`
and the zero cubic. -/
theorem sampled_cubic_zero_residuals_witness :
    (0 : ℚ) < 1
  ∧ ∀ i : Fin 1, (AccelJumpConstraint.ofTblock 1).residual
      (sampleR (zeroVec 1) (zeroVec 1) (zeroVec 1) (zeroVec 1) 0)
      (sampleV (zeroVec 1) (zeroVec 1) (zeroVec 1) (zeroVec 1) 1 0)
      (sampleV (zeroVec 1) (zeroVec 1) (zeroVec 1) (zeroVec 1) 1 (0 + 1))
      (sampleR (zeroVec 1) (zeroVec 1) (zeroVec 1) (zeroVec 1) (0 + 2 * 1))
      (sampleV (zeroVec 1) (zeroVec 1) (zeroVec 1) (zeroVec 1) 1 (0 + 2 * 1))
      i = 0 :=
  ⟨by norm_num,
   (sampled_cubic_zero_residuals (zeroVec 1) (zeroVec 1) (zeroVec 1)
     (zeroVec 1) 0 1 (by norm_num)).1⟩

/-- Counterexample to claim C8: constructing a `SplineFit` with `num = 0`
(fewer than 2 blocks) succeeds — the C++ constructor body contains no
validation, so no configuration error is raised. -/
theorem splineFit_construct_num_zero_succeeds :
    (0 : ℤ) < 2 ∧ (SplineFit.construct 3 0 1 0).isSome = true :=
  ⟨by decide, rfl⟩

/-- Amended claim C8: the constructor performs no block-count validation.
For every `num ≥ -1` (so in particular for every `num < 2` in that range)
construction succeeds, yielding vectors of `num + 1` nodes; only
`num < -1` fails, and then from the negative `std::vector` size request,
not from a configuration check. -/
theorem splineFit_construct_no_validation {N : ℕ} (num : ℤ)
    (tblock tstart : ℚ) (h : -1 ≤ num) :
    ∃ s : SplineFit N, SplineFit.construct N num tblock tstart = some s
      ∧ s.r.length = (num + 1).toNat
      ∧ s.v.length = (num + 1).toNat
      ∧ s.missing.length = (num + 1).toNat := by
  unfold SplineFit.construct
  rw [if_neg (by omega)]
  exact ⟨_, rfl, by simp, by simp, by simp⟩

/-- Witness for `splineFit_construct_no_validation` at `num = 0`, a block
count below 2. -/
theorem splineFit_construct_no_validation_witness :
    (-1 : ℤ) ≤ 0
  ∧ ∃ s : SplineFit 3, SplineFit.construct 3 0 1 0 = some s
      ∧ s.r.length = ((0 : ℤ) + 1).toNat
      ∧ s.v.length = ((0 : ℤ) + 1).toNat
      ∧ s.missing.length = ((0 : ℤ) + 1).toNat :=
  ⟨by decide, splineFit_construct_no_validation 0 1 0 (by decide)⟩

/-- Claim C10: immediately after construction with `num ≥ 0`, the vectors
`r`, `v` and `missing` each contain exactly `num + 1` entries and every
`missing` flag is `false`. -/
theorem splineFit_construct_init {N : ℕ} (num : ℤ) (tblock tstart : ℚ)
    (h : 0 ≤ num) :
    ∃ s : SplineFit N, SplineFit.construct N num tblock tstart = some s
      ∧ s.r.length = num.toNat + 1
      ∧ s.v.length = num.toNat + 1
      ∧ s.missing.length = num.toNat + 1
      ∧ ∀ b ∈ s.missing, b = false := by
  unfold SplineFit.construct
  rw [if_neg (by omega)]
  refine ⟨_, rfl, ?_, ?_, ?_, ?_⟩
  · simp; omega
  · simp; omega
  · simp; omega
  · intro b hb
    exact List.eq_of_mem_replicate hb

/-- Witness for `splineFit_construct_init` at `num = 2`. -/
theorem splineFit_construct_init_witness :
    (0 : ℤ) ≤ 2
  ∧ ∃ s : SplineFit 3, SplineFit.construct 3 2 1 0 = some s
      ∧ s.r.length = (2 : ℤ).toNat + 1
      ∧ s.v.length = (2 : ℤ).toNat + 1
      ∧ s.missing.length = (2 : ℤ).toNat + 1
      ∧ ∀ b ∈ s.missing, b = false :=
  ⟨by decide, splineFit_construct_init 2 1 0 (by decide)⟩

/-- Indices of the nodes not flagged missing. -/
def knownIndices (missing : List Bool) : List ℕ :=
  (List.range missing.length).filter (fun j => !(missing.getD j true))

/-- The nearest known node strictly before `k`, if any. -/
def prevKnown (missing : List Bool) (k : ℕ) : Option ℕ :=
  ((knownIndices missing).filter (fun j => decide (j < k))).getLast?

/-- The nearest known node strictly after `k`, if any. -/
def nextKnown (missing : List Bool) (k : ℕ) : Option ℕ :=
  ((knownIndices missing).filter (fun j => decide (k < j))).head?

/-- The straight line through the node values at indices `j` and `l`,
evaluated at index `k` (interpolation when `j < k < l`, extrapolation
otherwise). -/
def interpNode {N : ℕ} (xs : List (Fin N → ℚ)) (j l k : ℕ) : Fin N → ℚ :=
  fun i =>
    let xj := (xs.getD j (fun _ => 0)) i
    let xl := (xs.getD l (fun _ => 0)) i
    xj + (((k : ℚ) - (j : ℚ)) / ((l : ℚ) - (j : ℚ))) * (xl - xj)

/-- Modelled from the spec: the value assigned to a missing node `k` —
interpolation between the nearest preceding and following known nodes when
both exist, otherwise linear extrapolation from the nearest run of known
nodes at the sequence end (falling back to the single known neighbour when
only one known node exists on that side). -/
def fillNode {N : ℕ} (missing : List Bool) (xs : List (Fin N → ℚ))
    (k : ℕ) : Fin N → ℚ :=
  match prevKnown missing k, nextKnown missing k with
  | some j, some l => interpNode xs j l k
  | some j, none =>
    match prevKnown missing j with
    | some j2 => interpNode xs j2 j k
    | none => xs.getD j (fun _ => 0)
  | none, some l =>
    match nextKnown missing l with
    | some l2 => interpNode xs l l2 k
    | none => xs.getD l (fun _ => 0)
  | none, none => fun _ => 0

/-- Modelled from the spec: the body of `SplineFit::fillmissing` is not
among the sources — SplineFit.hpp line 94 only declares it.  Per the spec
(§4.4) and the comment at lines 91-93, it overwrites the position and
velocity entries of every node flagged missing with interpolated or
extrapolated values, reports failure (`false`) when every node is missing,
and leaves the `missing` vector itself untouched.  The spec does not
specify what the `linearfit` flag changes, so the model threads it through
unused. -/
def SplineFit.fillmissing {N : ℕ} (s : SplineFit N) (linearfit : Bool) :
    Bool × SplineFit N :=
  if s.missing.all (fun b => b) then (false, s)
  else
    (true,
     { s with
       r := (List.range s.r.length).map fun k =>
         if s.missing.getD k false then fillNode s.missing s.r k
         else s.r.getD k (fun _ => 0)
       v := (List.range s.v.length).map fun k =>
         if s.missing.getD k false then fillNode s.missing s.v k
         else s.v.getD k (fun _ => 0) })

/-- Claim C9: for every `SplineFit` state and every boolean `linearfit`,
`fillmissing` leaves the `missing` vector unchanged — even for nodes whose
position and velocity entries it overwrites. -/
theorem fillmissing_preserves_missing {N : ℕ} (s : SplineFit N)
    (linearfit : Bool) :
    ((s.fillmissing linearfit).2).missing = s.missing := by
  unfold SplineFit.fillmissing
  split <;> rfl

end LidarTrajectory
